import Mathlib

/-!
Verification of the text-buffer / cursor / viewport model of the
py-tui-editor widget (src/tui_editor/tui_editor.py and
src/tui_editor/tty_helpers.py).

Lines are modelled as `List Char` (Python `str`), the buffer as
`List (List Char)`.  Python integers are non-negative in every state the
theorems quantify over; the two places where the source computes a
possibly-negative intermediate value (`handle_cursor_keys` for Page Up /
Page Down) are modelled with an explicit `Int` intermediate, mirroring the
source's tests, and converted back with `Int.toNat` after the clamping
branch, exactly where the source guarantees non-negativity.

Terminal writes (escape sequences, `update_screen`, `update_line`,
`set_cursor`, the `on_*` hooks, which are no-ops by default) do not touch
the buffer/cursor/viewport fields and are omitted from the state
transition functions; the horizontal-shift arithmetic of `set_cursor` and
`_show_content_line` is modelled separately below because two claims are
about it.
-/

namespace TuiEd

/-! ### Python `str.split("\n")` and `"\n".join` (used by set_text / get_text) -/

/-- Python `s.split("\n")`: `""` gives `[""]`, a trailing newline gives a
trailing empty piece. -/
def splitNl : List Char → List (List Char)
  | [] => [[]]
  | c :: rest =>
    if c = '\n' then [] :: splitNl rest
    else
      match splitNl rest with
      | [] => [[c]]
      | l :: ls => (c :: l) :: ls

/-- Python `"\n".join(lines)`. -/
def joinNl : List (List Char) → List Char
  | [] => []
  | [l] => l
  | l :: l2 :: ls => l ++ '\n' :: joinNl (l2 :: ls)

theorem splitNl_ne_nil (t : List Char) : splitNl t ≠ [] := by
  cases t with
  | nil => simp [splitNl]
  | cons c rest =>
    simp only [splitNl]
    split
    · simp
    · cases h : splitNl rest <;> simp

theorem joinNl_splitNl (t : List Char) : joinNl (splitNl t) = t := by
  induction t with
  | nil => rfl
  | cons c rest ih =>
    simp only [splitNl]
    split
    · rename_i hc
      subst hc
      cases h : splitNl rest with
      | nil => exact absurd h (splitNl_ne_nil rest)
      | cons l ls =>
        simp only [joinNl, List.nil_append]
        rw [h] at ih
        rw [ih]
    · rename_i hc
      cases h : splitNl rest with
      | nil => exact absurd h (splitNl_ne_nil rest)
      | cons l ls =>
        rw [h] at ih
        cases ls with
        | nil => simp only [joinNl] at ih ⊢; rw [ih]
        | cons l2 ls2 => simp only [joinNl] at ih ⊢; simp [ih]

/-! ### Editor state (the fields of `TuiEditor` that carry the model) -/

/-- The model state of `TuiEditor`: `top_line_idx`, `row`, `col`,
`height`, `_content`. -/
structure Ed where
  top : Nat
  row : Nat
  col : Nat
  height : Nat
  content : List (List Char)
  deriving Repr, DecidableEq

/-- `TuiEditor.total_lines`. -/
def totalLines (s : Ed) : Nat := s.content.length

/-- `TuiEditor.cur_line_idx`. -/
def curLineIdx (s : Ed) : Nat := s.top + s.row

/-- The current line `self._content[self.cur_line_idx]` (in every state the
theorems quantify over the index is in range). -/
def curLine (s : Ed) : List Char := s.content.getD (curLineIdx s) []

/-- `TuiEditor.adjust_cursor_eol`. -/
def adjustCursorEol (s : Ed) : Ed :=
  if (curLine s).length < s.col then { s with col := (curLine s).length } else s

/-- `TuiEditor.set_text_lines` (the `_content` effect; `lines.copy() or [""]`). -/
def setTextLines (s : Ed) (lines : List (List Char)) : Ed :=
  { s with content := if lines = [] then [[]] else lines }

/-- `TuiEditor.set_text`. -/
def setText (s : Ed) (t : List Char) : Ed := setTextLines s (splitNl t)

/-- `TuiEditor.get_text_lines`. -/
def getTextLines (s : Ed) : List (List Char) := s.content

/-- `TuiEditor.get_text`. -/
def getText (s : Ed) : List Char := joinNl s.content

/-- The structural validity of a state, from the spec's data-model
section: non-empty buffer, cursor line in range, column within the
current line, row inside the configured height, positive height. -/
def Valid (s : Ed) : Prop :=
  s.content ≠ [] ∧ curLineIdx s < s.content.length ∧
    s.col ≤ (curLine s).length ∧ s.row < s.height ∧ 1 ≤ s.height

instance (s : Ed) : Decidable (Valid s) := by
  unfold Valid; infer_instance

/-! ### Keys and the edit / motion transition functions -/

/-- A key value as `handle_key` / `handle_cursor_keys` receive it:
a Python `int` (the `KEY_*` constants: UP=1, DOWN=2, LEFT=3, RIGHT=4,
HOME=5, END=6, PGUP=7, PGDN=8, ENTER=10, BACKSPACE=11, DELETE=12),
a decoded `str`, or raw `bytes`. -/
inductive Key where
  | knum (n : Nat)
  | kstr (u : List Char)
  | kbytes (bs : List Nat)
  deriving Repr, DecidableEq

/-- Python `list.insert(i, x)` for `0 ≤ i` (clamps at the end, as
`List.take` does). -/
def listInsert (l : List (List Char)) (i : Nat) (x : List Char) : List (List Char) :=
  l.take i ++ [x] ++ l.drop i

/-- Python `list.pop(i)` for an in-range non-negative `i` (the list
effect only). -/
def listRemove (l : List (List Char)) (i : Nat) : List (List Char) :=
  l.take i ++ l.drop (i + 1)

/-- `TuiEditor._move_cursor_next_line` (model-state effect only; the
`_maybe_update_line_after_cursor_change` and `update_screen` calls write
to the terminal and leave the model fields untouched). -/
def moveNextLine (s : Ed) : Ed :=
  if s.row + 1 = s.height then adjustCursorEol { s with top := s.top + 1 }
  else adjustCursorEol { s with row := s.row + 1 }

/-- `TuiEditor._move_cursor_prev_line` (model-state effect only). -/
def movePrevLine (s : Ed) : Ed :=
  if s.row = 0 then
    if 0 < s.top then adjustCursorEol { s with top := s.top - 1 } else s
  else adjustCursorEol { s with row := s.row - 1 }

/-- The Page Up branch of `handle_cursor_keys`.  The source computes
`self.top_line_idx -= self.height` on a Python `int`, which can go
negative before the `if self.top_line_idx < 0` test; the intermediate is
therefore an `Int` here.  The `elif self.cur_line_idx < 0` test of the
source is kept even though it can never fire once `topZ ≥ 0`. -/
def pgUp (s : Ed) : Ed :=
  let topZ : Int := (s.top : Int) - (s.height : Int)
  let s1 :=
    if topZ < 0 then { s with top := 0, row := 0 }
    else if topZ + (s.row : Int) < 0 then { s with top := topZ.toNat, row := 0 }
    else { s with top := topZ.toNat }
  adjustCursorEol s1

/-- The Page Down branch of `handle_cursor_keys`.  After
`self.top_line_idx += self.height`, the source tests
`self.cur_line_idx >= self.total_lines` and then assigns
`self.top_line_idx = self.total_lines - self.height`, a possibly negative
`int`, tested with `>= 0`; in the negative branch it sets
`top_line_idx = 0` first and then `self.row = self.cur_line_idx`, which
at that point is `0 + row`. -/
def pgDn (s : Ed) : Ed :=
  let s1 : Ed := { s with top := s.top + s.height }
  let s2 :=
    if totalLines s1 ≤ curLineIdx s1 then
      let topZ : Int := (totalLines s1 : Int) - (s1.height : Int)
      if 0 ≤ topZ then { s1 with top := topZ.toNat, row := s1.height - 1 }
      else { s1 with top := 0, row := 0 + s1.row }
    else s1
  adjustCursorEol s2

/-- `TuiEditor.handle_cursor_keys`: the updated state and the returned
consumed flag. -/
def handleCursorKeys (s : Ed) (key : Key) : Ed × Bool :=
  if key = Key.knum 2 then
    (if curLineIdx s + 1 ≠ totalLines s then moveNextLine s else s, true)
  else if key = Key.knum 1 then
    (if 0 < curLineIdx s then movePrevLine s else s, true)
  else if key = Key.knum 3 then
    (if 0 < s.col then { s with col := s.col - 1 }
     else if 0 < curLineIdx s then
       movePrevLine { s with col := (s.content.getD (curLineIdx s - 1) []).length }
     else s, true)
  else if key = Key.knum 4 then
    (if s.col < (curLine s).length then { s with col := s.col + 1 }
     else if curLineIdx s < s.content.length - 1 then
       moveNextLine { s with col := 0 }
     else s, true)
  else if key = Key.knum 5 then ({ s with col := 0 }, true)
  else if key = Key.knum 6 then ({ s with col := (curLine s).length }, true)
  else if key = Key.knum 7 then (pgUp s, true)
  else if key = Key.knum 8 then (pgDn s, true)
  else (s, false)

/-- `TuiEditor.handle_key` (model-state effect; `update_line`,
`update_screen`, `tty.update_occupied_space` and `on_edit` do not touch
the model fields). -/
def handleKey (s : Ed) (key : Key) : Ed :=
  let cur := curLineIdx s
  let curL := s.content.getD cur []
  if key = Key.knum 10 then
    let c1 := s.content.set cur (curL.take s.col)
    let c2 := listInsert c1 (cur + 1) (curL.drop s.col)
    moveNextLine { s with content := c2, col := 0 }
  else if key = Key.knum 11 then
    if 0 < s.col then
      let col1 := s.col - 1
      { s with col := col1,
               content := s.content.set cur (curL.take col1 ++ curL.drop (col1 + 1)) }
    else if s.col = 0 ∧ 0 < cur then
      let prevLen := (s.content.getD (cur - 1) []).length
      let c1 := s.content.set (cur - 1)
        (s.content.getD (cur - 1) [] ++ s.content.getD cur [])
      let c2 := listRemove c1 cur
      let s1 := { s with col := prevLen, content := c2 }
      if 0 < s.top ∧ c2.length < s.top + s.height then { s1 with top := s.top - 1 }
      else if 0 < s.row then { s1 with row := s.row - 1 }
      else s1
    else s
  else if key = Key.knum 12 then
    if s.col < curL.length then
      { s with content := s.content.set cur (curL.take s.col ++ curL.drop (s.col + 1)) }
    else if s.col = curL.length ∧ cur < s.content.length - 1 then
      let c1 := s.content.set cur (s.content.getD cur [] ++ s.content.getD (cur + 1) [])
      { s with content := listRemove c1 (cur + 1) }
    else s
  else
    match key with
    | Key.knum _ => s
    | Key.kbytes bs =>
      if bs.head? = some 27 then s
      else if bs.length = 1 ∧ bs.headD 0 ≤ 31 then s
      else s
    | Key.kstr u =>
      if u.length = 1 ∧ (u.headD ' ').toNat ≤ 31 then s
      else { s with content := s.content.set cur (curL.take s.col ++ u ++ curL.drop s.col),
                    col := s.col + 1 }

/-! ### Claim C2 -/

/-- C2: `set_text s` followed by `get_text` returns exactly `s`, and
`set_text_lines ls` followed by `get_text_lines` returns `ls` for every
non-empty list of lines. -/
theorem set_get_text_roundtrip :
    (∀ (s : Ed) (t : List Char), getText (setText s t) = t) ∧
    (∀ (s : Ed) (ls : List (List Char)), ls ≠ [] →
      getTextLines (setTextLines s ls) = ls) := by
  constructor
  · intro s t
    simp [getText, setText, setTextLines, splitNl_ne_nil, joinNl_splitNl]
  · intro s ls h
    simp [getTextLines, setTextLines, h]

/-- Witness for C2 at concrete inputs. -/
theorem set_get_text_roundtrip_witness :
    getText (setText ⟨0, 0, 0, 10, [[]]⟩ ['h', 'i', '\n', 'x']) = ['h', 'i', '\n', 'x'] ∧
    getTextLines (setTextLines ⟨0, 0, 0, 10, [[]]⟩ [['a'], ['b']]) = [['a'], ['b']] :=
  ⟨set_get_text_roundtrip.1 ⟨0, 0, 0, 10, [[]]⟩ ['h', 'i', '\n', 'x'],
   set_get_text_roundtrip.2 ⟨0, 0, 0, 10, [[]]⟩ [['a'], ['b']] (by decide)⟩

/-! ### Field lemmas for `adjustCursorEol` -/

theorem adjust_content (s : Ed) : (adjustCursorEol s).content = s.content := by
  unfold adjustCursorEol; split <;> rfl

theorem adjust_top (s : Ed) : (adjustCursorEol s).top = s.top := by
  unfold adjustCursorEol; split <;> rfl

theorem adjust_row (s : Ed) : (adjustCursorEol s).row = s.row := by
  unfold adjustCursorEol; split <;> rfl

theorem adjust_col (s : Ed) : (adjustCursorEol s).col = min s.col (curLine s).length := by
  unfold adjustCursorEol
  split
  · show (curLine s).length = min s.col (curLine s).length
    rw [Nat.min_def]; split <;> omega
  · show s.col = min s.col (curLine s).length
    rw [Nat.min_def]; split <;> omega

theorem curLine_adjust (s : Ed) : curLine (adjustCursorEol s) = curLine s := by
  unfold adjustCursorEol; split <;> rfl

/-! ### Key-dispatch lemmas for `handleCursorKeys` (each is the branch of
the source if-chain the given `KEY_*` constant selects) -/

theorem hck_pgup_state (s : Ed) : (handleCursorKeys s (Key.knum 7)).1 = pgUp s := rfl

theorem hck_pgdn_state (s : Ed) : (handleCursorKeys s (Key.knum 8)).1 = pgDn s := rfl

/-! ### Claim C1 (code bug) -/

/-- C1: the claimed invariant (buffer non-empty and `col ≤` current line
length after any edit/motion sequence from a valid state) fails on the
code.  From the valid state `(top 0, row 0, col 0, height 2)` over
`["x", "aaaa", "", "y", "z"]`, Page Down followed by Backspace leaves the
column at 4 while the current line (`"y"`) has length 1: the Backspace
line-merge branch moves neither `top_line_idx` nor `row` when `row = 0`,
`top_line_idx > 0` and the viewport-shrink test fails. -/
theorem invariant_violated_after_pgdn_backspace :
    Valid ⟨0, 0, 0, 2, [['x'], ['a', 'a', 'a', 'a'], [], ['y'], ['z']]⟩ ∧
    (handleKey
      (handleCursorKeys ⟨0, 0, 0, 2, [['x'], ['a', 'a', 'a', 'a'], [], ['y'], ['z']]⟩
        (Key.knum 8)).1 (Key.knum 11)).col = 4 ∧
    (curLine (handleKey
      (handleCursorKeys ⟨0, 0, 0, 2, [['x'], ['a', 'a', 'a', 'a'], [], ['y'], ['z']]⟩
        (Key.knum 8)).1 (Key.knum 11))).length = 1 := by
  decide

/-! ### Claim C3 (code bug) -/

/-- C3: the claim's concrete scenario (buffer `["ab","cd"]`, cursor
`(1,0)`, Backspace gives `["abcd"]` with cursor `(0,2)`) holds, but the
universally quantified statement fails: from the valid state
`(top 2, row 0, col 0, height 2)` over `["p","qqq","","r","s"]` (cursor
line index 2, column 0), Backspace merges the lines correctly but leaves
the cursor line index at 2 instead of moving it to 1, because neither
cursor-adjustment branch of the merge applies when `row = 0`,
`top_line_idx > 0` and the viewport-shrink test fails. -/
theorem backspace_merge_cursor_not_moved :
    (handleKey ⟨0, 1, 0, 10, [['a', 'b'], ['c', 'd']]⟩ (Key.knum 11) =
      ⟨0, 0, 2, 10, [['a', 'b', 'c', 'd']]⟩) ∧
    Valid ⟨2, 0, 0, 2, [['p'], ['q', 'q', 'q'], [], ['r'], ['s']]⟩ ∧
    (handleKey ⟨2, 0, 0, 2, [['p'], ['q', 'q', 'q'], [], ['r'], ['s']]⟩ (Key.knum 11)).content =
      [['p'], ['q', 'q', 'q'], ['r'], ['s']] ∧
    curLineIdx (handleKey ⟨2, 0, 0, 2, [['p'], ['q', 'q', 'q'], [], ['r'], ['s']]⟩
      (Key.knum 11)) = 2 ∧
    ¬ curLineIdx (handleKey ⟨2, 0, 0, 2, [['p'], ['q', 'q', 'q'], [], ['r'], ['s']]⟩
      (Key.knum 11)) =
        curLineIdx ⟨2, 0, 0, 2, [['p'], ['q', 'q', 'q'], [], ['r'], ['s']]⟩ - 1 := by
  decide

/-! ### Claim C4 (corrected) -/

/-- C4 counterexample: from the valid state `(top 2, row 0, col 0,
height 2)` over a five-line buffer, Page Down sets `top_line_idx` to 4,
which is strictly greater than `totalLines - height = 3`: the result is
not clamped to `[0, totalLines - height]` as claimed, because the code
only clamps when the cursor line index passes the end of the buffer. -/
theorem pgdn_top_exceeds_clamp :
    Valid ⟨2, 0, 0, 2, [['a'], ['b'], ['c'], ['d'], ['e']]⟩ ∧
    (handleCursorKeys ⟨2, 0, 0, 2, [['a'], ['b'], ['c'], ['d'], ['e']]⟩ (Key.knum 8)).1.top = 4 ∧
    totalLines ⟨2, 0, 0, 2, [['a'], ['b'], ['c'], ['d'], ['e']]⟩ -
      (⟨2, 0, 0, 2, [['a'], ['b'], ['c'], ['d'], ['e']]⟩ : Ed).height < 4 := by
  decide

/-- C4 amended: Page Up moves `top_line_idx` up by `height`, clamping at
0 and resetting `row` to 0 exactly when it clamps; Page Down moves
`top_line_idx` down by `height` with no upper clamp unless the cursor
line index would reach the end of the buffer, in which case
`top_line_idx` becomes `max (totalLines - height) 0` with `row = height - 1`
(or `row` unchanged when the buffer is shorter than one page); in all
cases the buffer is unchanged and the column is clamped to the current
line's length. -/
theorem page_keys_move_top_by_height (s : Ed) (h : Valid s) :
    ((handleCursorKeys s (Key.knum 7)).1.content = s.content ∧
     (handleCursorKeys s (Key.knum 7)).1.top = s.top - s.height ∧
     (handleCursorKeys s (Key.knum 7)).1.row = (if s.top < s.height then 0 else s.row) ∧
     (handleCursorKeys s (Key.knum 7)).1.col =
       min s.col (curLine (handleCursorKeys s (Key.knum 7)).1).length) ∧
    ((handleCursorKeys s (Key.knum 8)).1.content = s.content ∧
     (if s.top + s.height + s.row < s.content.length then
        (handleCursorKeys s (Key.knum 8)).1.top = s.top + s.height ∧
        (handleCursorKeys s (Key.knum 8)).1.row = s.row
      else if s.height ≤ s.content.length then
        (handleCursorKeys s (Key.knum 8)).1.top = s.content.length - s.height ∧
        (handleCursorKeys s (Key.knum 8)).1.row = s.height - 1
      else
        (handleCursorKeys s (Key.knum 8)).1.top = 0 ∧
        (handleCursorKeys s (Key.knum 8)).1.row = s.row) ∧
     (handleCursorKeys s (Key.knum 8)).1.col =
       min s.col (curLine (handleCursorKeys s (Key.knum 8)).1).length) := by
  constructor
  · simp only [hck_pgup_state]
    unfold pgUp
    by_cases h1 : (s.top : Int) - (s.height : Int) < 0
    · have ht : s.top < s.height := by omega
      simp only [if_pos h1]
      refine ⟨adjust_content _, ?_, ?_, ?_⟩
      · rw [adjust_top]; show (0 : Nat) = s.top - s.height; omega
      · rw [adjust_row, if_pos ht]
      · rw [adjust_col, curLine_adjust]
    · have ht : ¬ s.top < s.height := by omega
      have h2 : ¬ ((s.top : Int) - (s.height : Int) + (s.row : Int) < 0) := by omega
      simp only [if_neg h1, if_neg h2]
      refine ⟨adjust_content _, ?_, ?_, ?_⟩
      · rw [adjust_top]; show ((s.top : Int) - (s.height : Int)).toNat = s.top - s.height; omega
      · rw [adjust_row, if_neg ht]
      · rw [adjust_col, curLine_adjust]
  · simp only [hck_pgdn_state]
    unfold pgDn
    simp only [totalLines, curLineIdx]
    by_cases h1 : s.content.length ≤ s.top + s.height + s.row
    · have hlt : ¬ s.top + s.height + s.row < s.content.length := by omega
      simp only [if_pos h1, if_neg hlt]
      by_cases h2 : (0 : Int) ≤ (s.content.length : Int) - (s.height : Int)
      · have hle : s.height ≤ s.content.length := by omega
        simp only [if_pos h2, if_pos hle]
        refine ⟨adjust_content _, ⟨?_, ?_⟩, ?_⟩
        · rw [adjust_top]
          show ((s.content.length : Int) - (s.height : Int)).toNat = s.content.length - s.height
          omega
        · rw [adjust_row]
        · rw [adjust_col, curLine_adjust]
      · have hle : ¬ s.height ≤ s.content.length := by omega
        simp only [if_neg h2, if_neg hle]
        exact ⟨adjust_content _,
          ⟨by rw [adjust_top], by rw [adjust_row]; show 0 + s.row = s.row; omega⟩,
          by rw [adjust_col, curLine_adjust]⟩
    · have hlt : s.top + s.height + s.row < s.content.length := by omega
      simp only [if_neg h1, if_pos hlt]
      exact ⟨adjust_content _, ⟨by rw [adjust_top], by rw [adjust_row]⟩,
        by rw [adjust_col, curLine_adjust]⟩

/-- Witness for the amended C4 at a concrete valid state. -/
theorem page_keys_move_top_by_height_witness :
    (((handleCursorKeys ⟨1, 0, 1, 2, [['a'], ['b', 'c'], ['d'], ['e']]⟩ (Key.knum 7)).1.content =
        [['a'], ['b', 'c'], ['d'], ['e']] ∧
      (handleCursorKeys ⟨1, 0, 1, 2, [['a'], ['b', 'c'], ['d'], ['e']]⟩ (Key.knum 7)).1.top = 1 - 2 ∧
      (handleCursorKeys ⟨1, 0, 1, 2, [['a'], ['b', 'c'], ['d'], ['e']]⟩ (Key.knum 7)).1.row =
        (if (1 : Nat) < 2 then 0 else 0) ∧
      (handleCursorKeys ⟨1, 0, 1, 2, [['a'], ['b', 'c'], ['d'], ['e']]⟩ (Key.knum 7)).1.col =
        min 1 (curLine (handleCursorKeys ⟨1, 0, 1, 2, [['a'], ['b', 'c'], ['d'], ['e']]⟩
          (Key.knum 7)).1).length) ∧
     ((handleCursorKeys ⟨1, 0, 1, 2, [['a'], ['b', 'c'], ['d'], ['e']]⟩ (Key.knum 8)).1.content =
        [['a'], ['b', 'c'], ['d'], ['e']] ∧
      (if 1 + 2 + 0 < ([['a'], ['b', 'c'], ['d'], ['e']] : List (List Char)).length then
        (handleCursorKeys ⟨1, 0, 1, 2, [['a'], ['b', 'c'], ['d'], ['e']]⟩ (Key.knum 8)).1.top = 1 + 2 ∧
        (handleCursorKeys ⟨1, 0, 1, 2, [['a'], ['b', 'c'], ['d'], ['e']]⟩ (Key.knum 8)).1.row = 0
      else if 2 ≤ ([['a'], ['b', 'c'], ['d'], ['e']] : List (List Char)).length then
        (handleCursorKeys ⟨1, 0, 1, 2, [['a'], ['b', 'c'], ['d'], ['e']]⟩ (Key.knum 8)).1.top =
          ([['a'], ['b', 'c'], ['d'], ['e']] : List (List Char)).length - 2 ∧
        (handleCursorKeys ⟨1, 0, 1, 2, [['a'], ['b', 'c'], ['d'], ['e']]⟩ (Key.knum 8)).1.row = 2 - 1
      else
        (handleCursorKeys ⟨1, 0, 1, 2, [['a'], ['b', 'c'], ['d'], ['e']]⟩ (Key.knum 8)).1.top = 0 ∧
        (handleCursorKeys ⟨1, 0, 1, 2, [['a'], ['b', 'c'], ['d'], ['e']]⟩ (Key.knum 8)).1.row = 0) ∧
      (handleCursorKeys ⟨1, 0, 1, 2, [['a'], ['b', 'c'], ['d'], ['e']]⟩ (Key.knum 8)).1.col =
        min 1 (curLine (handleCursorKeys ⟨1, 0, 1, 2, [['a'], ['b', 'c'], ['d'], ['e']]⟩
          (Key.knum 8)).1).length)) :=
  page_keys_move_top_by_height ⟨1, 0, 1, 2, [['a'], ['b', 'c'], ['d'], ['e']]⟩ (by decide)

/-! ### Claim C5 (Enter) -/

theorem hk_enter_state (s : Ed) :
    handleKey s (Key.knum 10) =
      moveNextLine { s with
        content := listInsert
          (s.content.set (curLineIdx s) ((curLine s).take s.col))
          (curLineIdx s + 1) ((curLine s).drop s.col),
        col := 0 } := rfl

theorem curLineIdx_moveNext (s : Ed) : curLineIdx (moveNextLine s) = curLineIdx s + 1 := by
  unfold moveNextLine curLineIdx
  split
  · rw [adjust_top, adjust_row]
    show s.top + 1 + s.row = s.top + s.row + 1
    omega
  · rw [adjust_top, adjust_row]
    show s.top + (s.row + 1) = s.top + s.row + 1
    omega

theorem content_moveNext (s : Ed) : (moveNextLine s).content = s.content := by
  unfold moveNextLine
  split <;> rw [adjust_content]

/-- C5: with the cursor on line `li` at column `col`, Enter truncates
line `li` at `col`, inserts a new line holding the removed remainder
immediately after it, and moves the cursor to `(li + 1, 0)`; the line
count grows by one. -/
theorem enter_splits_line (s : Ed) (h : Valid s) :
    (handleKey s (Key.knum 10)).content =
      s.content.take (curLineIdx s) ++
        [(curLine s).take s.col, (curLine s).drop s.col] ++
        s.content.drop (curLineIdx s + 1) ∧
    curLineIdx (handleKey s (Key.knum 10)) = curLineIdx s + 1 ∧
    (handleKey s (Key.knum 10)).col = 0 ∧
    (handleKey s (Key.knum 10)).content.length = s.content.length + 1 := by
  obtain ⟨-, hidx, -, -, -⟩ := h
  have hset : s.content.set (curLineIdx s) ((curLine s).take s.col) =
      s.content.take (curLineIdx s) ++
        (curLine s).take s.col :: s.content.drop (curLineIdx s + 1) :=
    List.set_eq_take_cons_drop _ hidx
  have hlen : (s.content.take (curLineIdx s)).length = curLineIdx s :=
    List.length_take_of_le (Nat.le_of_lt hidx)
  have hsplice : (handleKey s (Key.knum 10)).content =
      s.content.take (curLineIdx s) ++
        [(curLine s).take s.col, (curLine s).drop s.col] ++
        s.content.drop (curLineIdx s + 1) := by
    rw [hk_enter_state, content_moveNext]
    show listInsert _ _ _ = _
    unfold listInsert
    rw [hset]
    have h1 : (s.content.take (curLineIdx s) ++
        (curLine s).take s.col :: s.content.drop (curLineIdx s + 1)).take (curLineIdx s + 1) =
        s.content.take (curLineIdx s) ++ [(curLine s).take s.col] := by
      have := List.take_left
        (s.content.take (curLineIdx s) ++ [(curLine s).take s.col])
        (s.content.drop (curLineIdx s + 1))
      simpa [hlen] using this
    have h2 : (s.content.take (curLineIdx s) ++
        (curLine s).take s.col :: s.content.drop (curLineIdx s + 1)).drop (curLineIdx s + 1) =
        s.content.drop (curLineIdx s + 1) := by
      have := List.drop_left
        (s.content.take (curLineIdx s) ++ [(curLine s).take s.col])
        (s.content.drop (curLineIdx s + 1))
      simpa [hlen] using this
    rw [show s.content.take (curLineIdx s) ++
        (curLine s).take s.col :: s.content.drop (curLineIdx s + 1) =
        (s.content.take (curLineIdx s) ++ [(curLine s).take s.col]) ++
        s.content.drop (curLineIdx s + 1) by simp] at h1 h2 ⊢
    rw [h1, h2]
    simp
  refine ⟨hsplice, ?_, ?_, ?_⟩
  · rw [hk_enter_state, curLineIdx_moveNext]
    show curLineIdx { s with
        content := _, col := 0 } + 1 = curLineIdx s + 1
    rfl
  · rw [hk_enter_state]
    unfold moveNextLine
    split <;> rw [adjust_col] <;> simp
  · rw [hsplice]
    simp only [List.length_append, hlen, List.length_drop, List.length_cons, List.length_nil]
    omega

/-- Witness for C5: scenario A, buffer `["abc"]`, cursor `(0, 3)`,
Enter gives buffer `["abc", ""]`, cursor `(1, 0)`. -/
theorem enter_splits_line_witness :
    (handleKey ⟨0, 0, 3, 10, [['a', 'b', 'c']]⟩ (Key.knum 10)).content =
      [['a', 'b', 'c'], []] ∧
    curLineIdx (handleKey ⟨0, 0, 3, 10, [['a', 'b', 'c']]⟩ (Key.knum 10)) = 1 ∧
    (handleKey ⟨0, 0, 3, 10, [['a', 'b', 'c']]⟩ (Key.knum 10)).col = 0 ∧
    (handleKey ⟨0, 0, 3, 10, [['a', 'b', 'c']]⟩ (Key.knum 10)).content.length = 2 :=
  enter_splits_line ⟨0, 0, 3, 10, [['a', 'b', 'c']]⟩ (by decide)

/-! ### Claim C6 (corrected) -/

/-- C6 counterexample: the insert branch of `handle_key` always runs
`self.col += 1`, so a two-character unit `"xy"` spliced at `(0, 1)` into
`["ab"]` yields the line `"axyb"` but column 2, not
`1 + length "xy" = 3` as the claim demands. -/
theorem insert_multichar_advances_col_by_one :
    (handleKey ⟨0, 0, 1, 10, [['a', 'b']]⟩ (Key.kstr ['x', 'y'])).content =
      [['a', 'x', 'y', 'b']] ∧
    (handleKey ⟨0, 0, 1, 10, [['a', 'b']]⟩ (Key.kstr ['x', 'y'])).col = 2 ∧
    ¬ (handleKey ⟨0, 0, 1, 10, [['a', 'b']]⟩ (Key.kstr ['x', 'y'])).col =
        1 + (['x', 'y'] : List Char).length := by
  decide

/-- C6 amended: for a single printable character `c` (code point above
31, the only shape of printable unit the main loop ever passes to
`handle_key`), typing `c` splices it into the current line at the cursor
column and advances the column by `length [c] = 1`. -/
theorem insert_char_splices_and_advances (s : Ed) (c : Char) (hc : 31 < c.toNat) :
    (handleKey s (Key.kstr [c])).content =
      s.content.set (curLineIdx s)
        ((curLine s).take s.col ++ [c] ++ (curLine s).drop s.col) ∧
    (handleKey s (Key.kstr [c])).col = s.col + ([c] : List Char).length ∧
    curLineIdx (handleKey s (Key.kstr [c])) = curLineIdx s := by
  have hch : ¬ (([c] : List Char).length = 1 ∧ (([c] : List Char).headD ' ').toNat ≤ 31) := by
    simp [List.headD]; omega
  have hred : handleKey s (Key.kstr [c]) =
      { s with
        content := s.content.set (curLineIdx s)
          ((curLine s).take s.col ++ [c] ++ (curLine s).drop s.col),
        col := s.col + 1 } := by
    show (if ([c] : List Char).length = 1 ∧ (([c] : List Char).headD ' ').toNat ≤ 31 then s
      else { s with
        content := s.content.set (curLineIdx s)
          ((s.content.getD (curLineIdx s) []).take s.col ++ [c] ++
            (s.content.getD (curLineIdx s) []).drop s.col),
        col := s.col + 1 }) = _
    rw [if_neg hch]
    rfl
  rw [hred]
  exact ⟨rfl, by simp, rfl⟩

/-- Witness for the amended C6: scenario D, buffer `["ab"]`, cursor
`(0, 1)`, typing `x` gives line `"axb"` and cursor `(0, 2)`. -/
theorem insert_char_splices_and_advances_witness :
    (handleKey ⟨0, 0, 1, 10, [['a', 'b']]⟩ (Key.kstr ['x'])).content =
      ([['a', 'b']] : List (List Char)).set 0
        ((['a', 'b'] : List Char).take 1 ++ ['x'] ++ (['a', 'b'] : List Char).drop 1) ∧
    (handleKey ⟨0, 0, 1, 10, [['a', 'b']]⟩ (Key.kstr ['x'])).col = 1 + (['x'] : List Char).length ∧
    curLineIdx (handleKey ⟨0, 0, 1, 10, [['a', 'b']]⟩ (Key.kstr ['x'])) = 0 :=
  insert_char_splices_and_advances ⟨0, 0, 1, 10, [['a', 'b']]⟩ 'x' (by decide)

/-! ### Claim C7 (boundary no-ops) -/

/-- C7: Left with the cursor at `(0, 0)` leaves the whole state
unchanged (and is consumed), Backspace at `(0, 0)` leaves the state
unchanged, and Right with the cursor at the end of the last line leaves
the state unchanged (and is consumed). -/
theorem boundary_keys_are_noops (s : Ed) :
    (s.top = 0 → s.row = 0 → s.col = 0 →
      handleCursorKeys s (Key.knum 3) = (s, true) ∧
      handleKey s (Key.knum 11) = s) ∧
    (s.col = (curLine s).length → curLineIdx s + 1 = s.content.length →
      handleCursorKeys s (Key.knum 4) = (s, true)) := by
  constructor
  · intro ht hr hc
    constructor
    · show (if 0 < s.col then _
        else if 0 < curLineIdx s then _ else s, true) = (s, true)
      rw [if_neg (by omega), if_neg (by unfold curLineIdx; omega)]
    · show (if 0 < s.col then _ else if s.col = 0 ∧ 0 < curLineIdx s then _ else s) = s
      rw [if_neg (by omega), if_neg (by unfold curLineIdx; omega)]
  · intro hc hidx
    show (if s.col < (curLine s).length then _
      else if curLineIdx s < s.content.length - 1 then _ else s, true) = (s, true)
    rw [if_neg (by omega), if_neg (by omega)]

/-- Witness for C7 at concrete states. -/
theorem boundary_keys_are_noops_witness :
    (handleCursorKeys ⟨0, 0, 0, 10, [['a', 'b']]⟩ (Key.knum 3) =
        (⟨0, 0, 0, 10, [['a', 'b']]⟩, true) ∧
      handleKey ⟨0, 0, 0, 10, [['a', 'b']]⟩ (Key.knum 11) = ⟨0, 0, 0, 10, [['a', 'b']]⟩) ∧
    handleCursorKeys ⟨0, 1, 2, 10, [['x'], ['c', 'd']]⟩ (Key.knum 4) =
      (⟨0, 1, 2, 10, [['x'], ['c', 'd']]⟩, true) :=
  ⟨(boundary_keys_are_noops ⟨0, 0, 0, 10, [['a', 'b']]⟩).1 rfl rfl rfl,
   (boundary_keys_are_noops ⟨0, 1, 2, 10, [['x'], ['c', 'd']]⟩).2 (by decide) (by decide)⟩

/-! ### Claim C8: the loop's byte decoding (lines 117-131 of
tui_editor.py) -/

/-- Strict UTF-8 decoding of a byte list, as Python `bytes.decode("utf8")`
accepts or rejects it: continuation bytes in `0x80..0xbf`, no overlong
forms, no surrogates, nothing above `U+10FFFF`. -/
def utf8Decode : List Nat → Option (List Char)
  | [] => some []
  | b :: rest =>
    if b ≤ 0x7f then (utf8Decode rest).map (fun cs => Char.ofNat b :: cs)
    else if 0xc2 ≤ b ∧ b ≤ 0xdf then
      match rest with
      | c1 :: rest2 =>
        if 0x80 ≤ c1 ∧ c1 ≤ 0xbf then
          (utf8Decode rest2).map
            (fun cs => Char.ofNat ((b - 0xc0) * 0x40 + (c1 - 0x80)) :: cs)
        else none
      | [] => none
    else if 0xe0 ≤ b ∧ b ≤ 0xef then
      match rest with
      | c1 :: c2 :: rest3 =>
        if ((b = 0xe0 ∧ 0xa0 ≤ c1 ∧ c1 ≤ 0xbf) ∨
            (0xe1 ≤ b ∧ b ≤ 0xec ∧ 0x80 ≤ c1 ∧ c1 ≤ 0xbf) ∨
            (b = 0xed ∧ 0x80 ≤ c1 ∧ c1 ≤ 0x9f) ∨
            (0xee ≤ b ∧ 0x80 ≤ c1 ∧ c1 ≤ 0xbf)) ∧
           0x80 ≤ c2 ∧ c2 ≤ 0xbf then
          (utf8Decode rest3).map
            (fun cs => Char.ofNat
              ((b - 0xe0) * 0x1000 + (c1 - 0x80) * 0x40 + (c2 - 0x80)) :: cs)
        else none
      | _ => none
    else if 0xf0 ≤ b ∧ b ≤ 0xf4 then
      match rest with
      | c1 :: c2 :: c3 :: rest4 =>
        if ((b = 0xf0 ∧ 0x90 ≤ c1 ∧ c1 ≤ 0xbf) ∨
            (0xf1 ≤ b ∧ b ≤ 0xf3 ∧ 0x80 ≤ c1 ∧ c1 ≤ 0xbf) ∨
            (b = 0xf4 ∧ 0x80 ≤ c1 ∧ c1 ≤ 0x8f)) ∧
           0x80 ≤ c2 ∧ c2 ≤ 0xbf ∧ 0x80 ≤ c3 ∧ c3 ≤ 0xbf then
          (utf8Decode rest4).map
            (fun cs => Char.ofNat ((b - 0xf0) * 0x40000 + (c1 - 0x80) * 0x1000 +
              (c2 - 0x80) * 0x40 + (c3 - 0x80)) :: cs)
        else none
      | _ => none
    else none

/-- The chunk after the decode step of the loop: either decoded text or
the raw bytes that were kept. -/
inductive Chunk where
  | text (s : List Char)
  | bytes (bs : List Nat)
  deriving Repr, DecidableEq

/-- The decode step of `loop`: a non-empty chunk whose first byte is not
`0x1b` or `0x7f` and exceeds 31 is decoded as UTF-8; on failure
(`UnicodeDecodeError` caught) the raw bytes are kept. -/
def decodeStep (bs : List Nat) : Chunk :=
  if bs ≠ [] ∧ bs.head? ≠ some 0x1b ∧ bs.head? ≠ some 0x7f ∧ 31 < bs.headD 0 then
    match utf8Decode bs with
    | some cs => Chunk.text cs
    | none => Chunk.bytes bs
  else Chunk.bytes bs

/-- The `KEYMAP` lookup of tty_helpers.py, on a byte-string key. -/
def keymapLookup (bs : List Nat) : Key :=
  if bs = [0x1b, 0x5b, 0x41] then Key.knum 1
  else if bs = [0x1b, 0x5b, 0x42] then Key.knum 2
  else if bs = [0x1b, 0x5b, 0x44] then Key.knum 3
  else if bs = [0x1b, 0x5b, 0x43] then Key.knum 4
  else if bs = [0x1b, 0x4f, 0x48] then Key.knum 5
  else if bs = [0x1b, 0x4f, 0x46] then Key.knum 6
  else if bs = [0x1b, 0x62] then Key.knum 5
  else if bs = [0x1b, 0x66] then Key.knum 6
  else if bs = [0x1b, 0x5b, 0x31, 0x7e] then Key.knum 5
  else if bs = [0x1b, 0x5b, 0x34, 0x7e] then Key.knum 6
  else if bs = [0x1b, 0x5b, 0x35, 0x7e] then Key.knum 7
  else if bs = [0x1b, 0x5b, 0x36, 0x7e] then Key.knum 8
  else if bs = [0x0d] then Key.knum 10
  else if bs = [0x7f] then Key.knum 11
  else if bs = [0x1b, 0x5b, 0x33, 0x7e] then Key.knum 12
  else Key.kbytes bs

/-- Outcome of handling one key in the loop body: continue with the new
state, raise `KeyboardInterrupt` (abort key, Ctrl-C by default), or
return from the loop (quit key, Ctrl-S by default). -/
inductive Step where
  | cont (s : Ed)
  | abort (s : Ed)
  | quit (s : Ed)
  deriving Repr, DecidableEq

/-- One iteration of the inner loop for a raw-bytes chunk whose first
byte is not the escape byte: the single-byte key `[b]` is mapped through
`KEYMAP`, checked against the abort and quit control keys, then goes to
`handle_cursor_keys` and, if not consumed there, to `handle_key` (the
default `on_key` hook consumes nothing). -/
def processByte (s : Ed) (b : Nat) : Step :=
  let key := keymapLookup [b]
  if key = Key.kbytes [0x03] then Step.abort s
  else if key = Key.kbytes [0x13] then Step.quit s
  else
    match handleCursorKeys s key with
    | (s1, true) => Step.cont s1
    | (s1, false) => Step.cont (handleKey s1 key)

/-- The inner loop over all bytes of a kept-raw chunk (first byte not
escape), stopping early on abort or quit. -/
def processChunkBytes (s : Ed) : List Nat → Step
  | [] => Step.cont s
  | b :: rest =>
    match processByte s b with
    | Step.cont s1 => processChunkBytes s1 rest
    | r => r

/-- C8 counterexample: the chunk `b"a\x80\r"` has its leading byte above
31 and not escape/0x7f, fails UTF-8 decoding, and is kept as raw bytes,
yet processing it DOES mutate the buffer: the embedded `\r` byte maps to
Enter and splits the line, so the claim's "no buffer mutation" is false. -/
theorem invalid_utf8_chunk_can_mutate :
    utf8Decode [0x61, 0x80, 0x0d] = none ∧
    decodeStep [0x61, 0x80, 0x0d] = Chunk.bytes [0x61, 0x80, 0x0d] ∧
    processChunkBytes ⟨0, 0, 1, 10, [['a', 'b']]⟩ [0x61, 0x80, 0x0d] =
      Step.cont ⟨0, 1, 0, 10, [['a'], ['b']]⟩ ∧
    ¬ ([['a'], ['b']] : List (List Char)) = [['a', 'b']] := by
  decide

theorem keymapLookup_single (b : Nat) (h13 : b ≠ 13) (h127 : b ≠ 127) :
    keymapLookup [b] = Key.kbytes [b] := by
  unfold keymapLookup
  rw [if_neg (by simp), if_neg (by simp), if_neg (by simp), if_neg (by simp),
    if_neg (by simp), if_neg (by simp), if_neg (by simp), if_neg (by simp),
    if_neg (by simp), if_neg (by simp), if_neg (by simp), if_neg (by simp),
    if_neg (by simp [h13]), if_neg (by simp [h127]), if_neg (by simp)]

/-- C8 amended: when UTF-8 decoding of such a chunk fails, no error is
raised: the raw bytes are kept (`decodeStep` returns them unchanged) and
every byte of the chunk that is not one of the four mapped control bytes
(3 = abort, 13 = Enter, 19 = quit, 127 = Backspace) is handled as
non-printable and leaves the editor state unchanged; no byte is ever
inserted as printable text. -/
theorem invalid_utf8_kept_and_nonprintable (bs : List Nat) (s : Ed)
    (h1 : bs ≠ []) (h2 : bs.head? ≠ some 0x1b) (h3 : bs.head? ≠ some 0x7f)
    (h4 : 31 < bs.headD 0) (h5 : utf8Decode bs = none) :
    decodeStep bs = Chunk.bytes bs ∧
    ∀ b ∈ bs, b ≠ 3 → b ≠ 13 → b ≠ 19 → b ≠ 127 → processByte s b = Step.cont s := by
  constructor
  · unfold decodeStep
    rw [if_pos ⟨h1, h2, h3, h4⟩, h5]
  · intro b _ hb3 hb13 hb19 hb127
    have hkey : keymapLookup [b] = Key.kbytes [b] := keymapLookup_single b hb13 hb127
    unfold processByte
    rw [hkey]
    have hne3 : ¬ (Key.kbytes [b] = Key.kbytes [0x03]) := by simp [hb3]
    have hne19 : ¬ (Key.kbytes [b] = Key.kbytes [0x13]) := by simp [hb19]
    rw [if_neg hne3, if_neg hne19]
    have hck : handleCursorKeys s (Key.kbytes [b]) = (s, false) := by
      unfold handleCursorKeys
      simp
    rw [hck]
    show Step.cont (handleKey s (Key.kbytes [b])) = Step.cont s
    have hhk : handleKey s (Key.kbytes [b]) = s := by
      unfold handleKey
      simp only [reduceCtorEq, if_false]
      show (if ([b] : List Nat).head? = some 27 then s
        else if ([b] : List Nat).length = 1 ∧ ([b] : List Nat).headD 0 ≤ 31 then s else s) = s
      split_ifs <;> rfl
    rw [hhk]

/-- Witness for the amended C8 on the concrete chunk `b"A\xff"`. -/
theorem invalid_utf8_kept_and_nonprintable_witness :
    decodeStep [0x41, 0xff] = Chunk.bytes [0x41, 0xff] ∧
    processByte ⟨0, 0, 0, 10, [[]]⟩ 0xff = Step.cont ⟨0, 0, 0, 10, [[]]⟩ :=
  ⟨(invalid_utf8_kept_and_nonprintable [0x41, 0xff] ⟨0, 0, 0, 10, [[]]⟩
      (by decide) (by decide) (by decide) (by decide) (by decide)).1,
   (invalid_utf8_kept_and_nonprintable [0x41, 0xff] ⟨0, 0, 0, 10, [[]]⟩
      (by decide) (by decide) (by decide) (by decide) (by decide)).2 0xff
      (by decide) (by decide) (by decide) (by decide) (by decide)⟩

/-! ### Claims C9 and C10: the horizontal-shift loops of `set_cursor`
and `_show_content_line` -/

/-- The `while col >= width - 1: col -= width // 3` loop of
`set_cursor`, with explicit fuel (one unit per iteration); `none` means
the loop has not finished within the given fuel, so non-termination of
the source loop is `none` for every fuel. -/
def setCursorShift (w : Nat) : Nat → Nat → Option Nat
  | 0, col => if w - 1 ≤ col then none else some col
  | fuel + 1, col =>
    if w - 1 ≤ col then setCursorShift w fuel (col - w / 3) else some col

/-- The `while col >= width - 1: col -= width // 3; line = line[width // 3:]`
loop of `_show_content_line`, with the same fuel convention; returns the
final column together with the left-shifted slice of the line. -/
def showLineShift (w : Nat) : Nat → Nat → List Char → Option (Nat × List Char)
  | 0, col, line => if w - 1 ≤ col then none else some (col, line)
  | fuel + 1, col, line =>
    if w - 1 ≤ col then showLineShift w fuel (col - w / 3) (line.drop (w / 3))
    else some (col, line)

/-- For `w ≥ 3` both loops finish with the same fuel, on the same final
column, and the rendered slice is the original line shifted left by
exactly the amount subtracted from the column. -/
theorem shift_pair_spec (w : Nat) (hw : 3 ≤ w) :
    ∀ col : Nat, ∀ line : List Char, ∃ fuel c,
      setCursorShift w fuel col = some c ∧ c ≤ col ∧
      showLineShift w fuel col line = some (c, line.drop (col - c)) := by
  intro col
  induction col using Nat.strong_induction_on with
  | _ col ih =>
    intro line
    by_cases hg : w - 1 ≤ col
    · have hlt : col - w / 3 < col := by omega
      obtain ⟨fuel, c, h1, h2, h3⟩ := ih (col - w / 3) hlt (line.drop (w / 3))
      refine ⟨fuel + 1, c, ?_, by omega, ?_⟩
      · show (if w - 1 ≤ col then setCursorShift w fuel (col - w / 3) else some col) = some c
        rw [if_pos hg, h1]
      · show (if w - 1 ≤ col then showLineShift w fuel (col - w / 3) (line.drop (w / 3))
          else some (col, line)) = some (c, line.drop (col - c))
        rw [if_pos hg, h3, List.drop_drop]
        have heq : w / 3 + (col - w / 3 - c) = col - c := by omega
        rw [heq]
    · refine ⟨0, col, ?_, Nat.le_refl col, ?_⟩
      · show (if w - 1 ≤ col then none else some col) = some col
        rw [if_neg hg]
      · show (if w - 1 ≤ col then none else some (col, line)) =
          some (col, line.drop (col - col))
        rw [if_neg hg, Nat.sub_self, List.drop_zero]

theorem shift_agree (w : Nat) : ∀ fuel col (line : List Char),
    showLineShift w fuel col line =
      (setCursorShift w fuel col).map (fun c => (c, line.drop (col - c))) ∧
    ∀ c, setCursorShift w fuel col = some c → c ≤ col := by
  intro fuel
  induction fuel with
  | zero =>
    intro col line
    constructor
    · show (if w - 1 ≤ col then none else some (col, line)) =
        ((if w - 1 ≤ col then none else some col).map (fun c => (c, line.drop (col - c))))
      by_cases hg : w - 1 ≤ col
      · rw [if_pos hg, if_pos hg]; rfl
      · rw [if_neg hg, if_neg hg]
        show _ = some (col, line.drop (col - col))
        rw [Nat.sub_self, List.drop_zero]
    · intro c hc
      show c ≤ col
      by_cases hg : w - 1 ≤ col
      · rw [show setCursorShift w 0 col = (if w - 1 ≤ col then none else some col) from rfl,
          if_pos hg] at hc
        exact absurd hc (by simp)
      · rw [show setCursorShift w 0 col = (if w - 1 ≤ col then none else some col) from rfl,
          if_neg hg] at hc
        cases hc
        exact Nat.le_refl col
  | succ f ihf =>
    intro col line
    have hd3 : w / 3 ≤ col ∨ ¬ (w - 1 ≤ col) := by omega
    by_cases hg : w - 1 ≤ col
    · have hdle : w / 3 ≤ col := by omega
      obtain ⟨ih1, ih2⟩ := ihf (col - w / 3) (line.drop (w / 3))
      constructor
      · rw [show showLineShift w (f + 1) col line =
            (if w - 1 ≤ col then showLineShift w f (col - w / 3) (line.drop (w / 3))
             else some (col, line)) from rfl,
          show setCursorShift w (f + 1) col =
            (if w - 1 ≤ col then setCursorShift w f (col - w / 3) else some col) from rfl,
          if_pos hg, if_pos hg]
        rw [ih1]
        cases hset : setCursorShift w f (col - w / 3) with
        | none => rfl
        | some c =>
          have hcle : c ≤ col - w / 3 := ih2 c hset
          show some (c, (line.drop (w / 3)).drop (col - w / 3 - c)) =
            some (c, line.drop (col - c))
          rw [List.drop_drop]
          have heq : w / 3 + (col - w / 3 - c) = col - c := by omega
          rw [heq]
      · intro c hc
        rw [show setCursorShift w (f + 1) col =
          (if w - 1 ≤ col then setCursorShift w f (col - w / 3) else some col) from rfl,
          if_pos hg] at hc
        have := ih2 c hc
        omega
    · constructor
      · show (if w - 1 ≤ col then _ else some (col, line)) =
          ((if w - 1 ≤ col then setCursorShift w f (col - w / 3) else some col).map
            (fun c => (c, line.drop (col - c))))
        rw [if_neg hg, if_neg hg]
        show _ = some (col, line.drop (col - col))
        rw [Nat.sub_self, List.drop_zero]
      · intro c hc
        rw [show setCursorShift w (f + 1) col =
          (if w - 1 ≤ col then setCursorShift w f (col - w / 3) else some col) from rfl,
          if_neg hg] at hc
        cases hc
        exact Nat.le_refl col

/-- C9: for every terminal width `w`, gutter width `g`, cursor column
`col` and fuel, the shift loop of `_show_content_line` and the shift
loop of `set_cursor` (both starting from `col + g`) behave identically:
they stop after the same number of iterations (the same fuel yields
`some`/`none` together) at the same final column `c`, with the rendered
slice equal to the line shifted left by the total subtracted amount; and
whenever the chosen terminal column lies at or right of the gutter
(`g ≤ c`), the character of the rendered slice at offset `c - g` is
exactly the character at the logical cursor column of the original line:
visual cursor and logical column never diverge. -/
theorem shift_arithmetic_consistent (w g col fuel : Nat) (line : List Char) :
    showLineShift w fuel (col + g) line =
      (setCursorShift w fuel (col + g)).map (fun c => (c, line.drop (col + g - c))) ∧
    ∀ c, setCursorShift w fuel (col + g) = some c → g ≤ c →
      (line.drop (col + g - c)).get? (c - g) = line.get? col := by
  obtain ⟨h1, h2⟩ := shift_agree w fuel (col + g) line
  refine ⟨h1, fun c hc hg => ?_⟩
  have hcle : c ≤ col + g := h2 c hc
  rw [List.get?_drop]
  have heq : col + g - c + (c - g) = col := by omega
  rw [heq]

/-- Witness for C9 at a concrete width, gutter, column and fuel
(at width 9 and column 10 + 4 the loops run three iterations and stop at
column 5). -/
theorem shift_arithmetic_consistent_witness :
    showLineShift 9 5 (10 + 4) ['a', 'b'] =
      (setCursorShift 9 5 (10 + 4)).map
        (fun c => (c, (['a', 'b'] : List Char).drop (10 + 4 - c))) ∧
    ((['a', 'b'] : List Char).drop (10 + 4 - 5)).get? (5 - 4) =
      (['a', 'b'] : List Char).get? 10 :=
  ⟨(shift_arithmetic_consistent 9 4 10 5 ['a', 'b']).1,
   (shift_arithmetic_consistent 9 4 10 5 ['a', 'b']).2 5 (by decide) (by decide)⟩

/-- C10: for every width `w ≥ 3` the shift loops terminate on every
column (some fuel suffices); for `w < 3` (where `w / 3 = 0`) and any
column at or beyond `w - 1` they never terminate (no fuel suffices, for
either loop). -/
theorem shift_loop_termination :
    (∀ w, 3 ≤ w → ∀ col line, (∃ fuel c, setCursorShift w fuel col = some c) ∧
      ∃ fuel p, showLineShift w fuel col line = some p) ∧
    (∀ w col, w < 3 → w - 1 ≤ col → ∀ fuel line,
      setCursorShift w fuel col = none ∧ showLineShift w fuel col line = none) := by
  constructor
  · intro w hw col line
    obtain ⟨fuel, c, h1, -, h3⟩ := shift_pair_spec w hw col line
    exact ⟨⟨fuel, c, h1⟩, ⟨fuel, _, h3⟩⟩
  · intro w col hw hcol fuel
    have hdiv : w / 3 = 0 := Nat.div_eq_of_lt hw
    induction fuel with
    | zero =>
      intro line
      constructor
      · show (if w - 1 ≤ col then none else some col) = none
        rw [if_pos hcol]
      · show (if w - 1 ≤ col then none else some (col, line)) = none
        rw [if_pos hcol]
    | succ f ihf =>
      intro line
      constructor
      · show (if w - 1 ≤ col then setCursorShift w f (col - w / 3) else some col) = none
        rw [if_pos hcol, hdiv, Nat.sub_zero]
        exact (ihf line).1
      · show (if w - 1 ≤ col then showLineShift w f (col - w / 3) (line.drop (w / 3))
          else some (col, line)) = none
        rw [if_pos hcol, hdiv, Nat.sub_zero, List.drop_zero]
        exact (ihf (line.drop 0)).2

/-- Witness for C10: termination at `w = 3` and divergence at `w = 2`. -/
theorem shift_loop_termination_witness :
    ((∃ fuel c, setCursorShift 3 fuel 5 = some c) ∧
      ∃ fuel p, showLineShift 3 fuel 5 ['a'] = some p) ∧
    (setCursorShift 2 7 5 = none ∧ showLineShift 2 7 5 ['a'] = none) :=
  ⟨shift_loop_termination.1 3 (by decide) 5 ['a'],
   shift_loop_termination.2 2 5 (by decide) (by decide) 7 ['a']⟩

end TuiEd
